import Mathlib

/-!
Shallow embedding of the document-mcp-server retrieval core:
the chunker (`src/document_processor.py`), the in-memory FAISS-backed
store (`src/document_store.py`), and the pgvector-backed store
(`src/document_store_pg.py`).  External collaborators (the
SentenceTransformer embedding model and the Postgres `<=>` distance
operator) are passed in as opaque function parameters; everything else is
translated from the source.
-/

/-- Decidable equality for `Except`, used to evaluate the embedded
fallible operations on concrete inputs. -/
instance {ε α : Type} [DecidableEq ε] [DecidableEq α] : DecidableEq (Except ε α) := fun
  | .ok a, .ok b =>
    if h : a = b then .isTrue (by rw [h]) else .isFalse (by intro hh; cases hh; exact h rfl)
  | .ok _, .error _ => .isFalse (by intro hh; cases hh)
  | .error _, .ok _ => .isFalse (by intro hh; cases hh)
  | .error e, .error f =>
    if h : e = f then .isTrue (by rw [h]) else .isFalse (by intro hh; cases hh; exact h rfl)

/-- Values stored in a Python metadata dict: strings, integers, or `None`. -/
inductive MValue where
  | s (v : String)
  | i (v : Int)
  | null
deriving DecidableEq, Repr

/-- A Python dict with string keys, modelled as an insertion-ordered
association list. -/
abbrev Metadata := List (String × MValue)

/-- Dict read, `d.get(k)`: the value at the first matching key. -/
def mget (m : Metadata) (k : String) : Option MValue :=
  (m.find? (fun p => p.1 == k)).map Prod.snd

/-- Dict write, `d[k] = v`: replace in place when the key exists, else
append at the end (Python dicts preserve insertion order). -/
def mset (m : Metadata) (k : String) (v : MValue) : Metadata :=
  if (m.find? (fun p => p.1 == k)).isSome then
    m.map (fun p => if p.1 == k then (k, v) else p)
  else
    m ++ [(k, v)]

/-- Accumulate maximal non-whitespace runs of a character list into words. -/
def splitWordsAux : List Char → List Char → List String
  | [], acc => if acc.isEmpty then [] else [String.mk acc.reverse]
  | c :: cs, acc =>
      if c.isWhitespace then
        (if acc.isEmpty then [] else [String.mk acc.reverse]) ++ splitWordsAux cs []
      else
        splitWordsAux cs (c :: acc)

/-- Word splitting as Python `str.split()` (after the `re.sub(r'\s+',' ')`
normalisation this is what `chunk_text` iterates over): split on
whitespace runs, dropping empty pieces. -/
def splitWords (text : String) : List String :=
  splitWordsAux text.data []

/-- Python `str.strip()`: drop leading and trailing whitespace. -/
def pyStrip (s : String) : String :=
  String.mk (((s.data.dropWhile Char.isWhitespace).reverse.dropWhile Char.isWhitespace).reverse)

/-- Python `range(0, stop, step)` over a nonnegative stop: a zero step
raises `ValueError`, a negative step yields no indices (the start is 0),
a positive step yields `0, step, 2*step, …` below `stop`. -/
def pyRangeIdx (stop : Nat) (step : Int) : Except String (List Nat) :=
  if step = 0 then .error "range() arg 3 must not be zero"
  else if step < 0 then .ok []
  else .ok ((List.range ((stop + step.toNat - 1) / step.toNat)).map (fun j => j * step.toNat))

/-- Configuration of `DocumentProcessor.__init__`: the two sizes are
stored as given, with no validation (mirroring the source, which has
none). -/
structure DocumentProcessor where
  chunk_size : Nat
  chunk_overlap : Nat
deriving DecidableEq, Repr

/-- The defaults of `DocumentProcessor.__init__(chunk_size=512,
chunk_overlap=50)`. -/
def DocumentProcessor.default : DocumentProcessor := ⟨512, 50⟩

/-- The body of the `for i in range(...)` loop of `chunk_text`: join the
word window, and when its strip is nonempty append the chunk together
with a copy of the base metadata carrying `chunk_index = len(chunks)-1`. -/
def chunkLoop (words : List String) (size : Nat) (base : Metadata) :
    List Nat → List String → List Metadata → List String × List Metadata
  | [], cs, ms => (cs, ms)
  | i :: rest, cs, ms =>
      let chunk := " ".intercalate ((words.drop i).take size)
      if pyStrip chunk == "" then
        chunkLoop words size base rest cs ms
      else
        chunkLoop words size base rest (cs ++ [chunk])
          (ms ++ [mset base "chunk_index" (.i cs.length)])

/-- Translation of `DocumentProcessor.chunk_text`: normalise whitespace
(empty result returns two empty lists), then window the words at offsets
`range(0, len(words), chunk_size - chunk_overlap)`; the `ValueError`
Python raises for a zero step surfaces as `.error`. -/
def chunk_text (p : DocumentProcessor) (text : String) (metadata : Option Metadata) :
    Except String (List String × List Metadata) :=
  let words := splitWords text
  if words.isEmpty then .ok ([], [])
  else
    match pyRangeIdx words.length ((p.chunk_size : Int) - (p.chunk_overlap : Int)) with
    | .error e => .error e
    | .ok idxs =>
        let base := match metadata with
          | some m => m
          | none => []
        .ok (chunkLoop words p.chunk_size base idxs [] [])

/-- Metadata built by `DocumentProcessor.process_and_chunk` for a file:
the source uses the keys `source`, `type` and `path`. -/
def processMetadata (name ext path : String) : Metadata :=
  [("source", .s name), ("type", .s ext), ("path", .s path)]

/-- Translation of `DocumentProcessor.process_and_chunk` with the
extracted text passed in (PDF/DOCX extraction is external I/O): chunk the
text with the per-file metadata attached. -/
def process_and_chunk (p : DocumentProcessor) (name ext path text : String) :
    Except String (List String × List Metadata) :=
  chunk_text p text (some (processMetadata name ext path))

example : chunk_text ⟨2, 1⟩ "a  b c " none =
    .ok (["a b", "b c", "c"],
         [[("chunk_index", .i 0)], [("chunk_index", .i 1)], [("chunk_index", .i 2)]]) := by
  decide

example : chunk_text ⟨2, 3⟩ "a b c" none = .ok ([], []) := by decide

example : chunk_text ⟨2, 2⟩ "a b c" none = .error "range() arg 3 must not be zero" := by
  decide

/-- Pair each element of a list with its 0-based position. -/
def withIdx {α : Type} (l : List α) : List (Nat × α) :=
  (List.range l.length).zip l

/-- Squared Euclidean distance, the metric of `faiss.IndexFlatL2`
(embedding vectors are modelled over `Int`; the embedding model itself is
an opaque parameter). -/
def sqdist (a b : List Int) : Int :=
  ((a.zip b).map (fun p => (p.1 - p.2) ^ 2)).sum

/-- Candidate ordering used by the flat index: ascending distance, ties
broken by the smaller (earlier-inserted) vector position. -/
def candOrder (a b : Nat × Int) : Prop :=
  a.2 < b.2 ∨ (a.2 = b.2 ∧ a.1 ≤ b.1)

instance : DecidableRel candOrder := fun a b => by
  unfold candOrder; exact inferInstanceAs (Decidable _)

/-- Behaviour of `faiss.IndexFlatL2.search` for one query: score every
stored vector, rank by ascending distance, and return the first `n`
pairs `(vector position, distance)`. -/
def faissTopK (index : List (List Int)) (qv : List Int) (n : Nat) : List (Nat × Int) :=
  (((withIdx index).map (fun p => (p.1, sqdist qv p.2))).insertionSort candOrder).take n

/-- One entry of the result list built by `FastDocumentStore.search`. -/
structure SearchResult where
  text : String
  metadata : Metadata
  distance : Int
  similarity : ℚ
deriving DecidableEq, Repr

/-- In-memory state of `FastDocumentStore`: the FAISS index contents and
the two parallel Python lists. -/
structure FastStore where
  dimension : Nat
  index : List (List Int)
  documents : List String
  metadata : List Metadata
deriving DecidableEq, Repr

/-- Python list indexing `l[i]` for a nonnegative index: raises
`IndexError` when out of range. -/
def pyGet {α : Type} (l : List α) (i : Nat) : Except String α :=
  if h : i < l.length then .ok (l.get ⟨i, h⟩) else .error "list index out of range"

/-- Result-building loop of `FastDocumentStore.search`: a candidate is
kept only when `idx < len(self.documents) and idx >= 0` (the `idx >= 0`
half is implicit in `Nat`); the kept candidates then index both parallel
lists, where `self.metadata[idx]` is NOT covered by the guard. -/
def buildResults (docs : List String) (meta : List Metadata) :
    List (Nat × Int) → Except String (List SearchResult)
  | [] => .ok []
  | (i, d) :: rest =>
      if i < docs.length then
        match pyGet docs i, pyGet meta i, buildResults docs meta rest with
        | .ok t, .ok m, .ok tl => .ok (⟨t, m, d, 1 / (1 + (d : ℚ))⟩ :: tl)
        | .error e, _, _ => .error e
        | _, .error e, _ => .error e
        | _, _, .error e => .error e
      else buildResults docs meta rest

/-- Translation of `FastDocumentStore.search` (the embedding model is
the parameter `model`): empty index returns `[]`; otherwise FAISS is
asked for `min(k, ntotal)` candidates which are filtered by the
`idx < len(documents)` guard and materialised. -/
def FastStore.search (model : String → List Int) (s : FastStore) (query : String) (k : Nat) :
    Except String (List SearchResult) :=
  if s.index.length = 0 then .ok []
  else
    buildResults s.documents s.metadata (faissTopK s.index (model query) (min k s.index.length))

/-- Translation of the in-memory effect of `FastDocumentStore.add_documents`:
empty input is a no-op; otherwise the embeddings are appended to the
FAISS index, the texts to `documents`, and `metadatas` (or `len(texts)`
empty dicts when `metadatas` is `None` or empty, Python truthiness) to
`metadata`.  No length validation is performed.  The trailing `save()`
is modelled by `FastStore.saveOps`. -/
def FastStore.add_documents (model : String → List Int) (s : FastStore)
    (texts : List String) (metadatas : Option (List Metadata)) : FastStore :=
  if texts.isEmpty then s
  else
    { s with
      index := s.index ++ texts.map model
      documents := s.documents ++ texts
      metadata := s.metadata ++
        match metadatas with
        | some (m :: ms) => m :: ms
        | _ => List.replicate texts.length ([] : Metadata) }

/-- Translation of the in-memory effect of `FastDocumentStore.clear`: a
fresh flat index of the same dimension and two empty lists. -/
def FastStore.clear (s : FastStore) : FastStore :=
  { s with index := [], documents := [], metadata := [] }

/-- Translation of `FastDocumentStore.get_stats`: the returned dict holds
exactly the keys `total_chunks`, `index_size` and `dimension`. -/
def FastStore.get_stats (s : FastStore) : Metadata :=
  [("total_chunks", .i s.documents.length),
   ("index_size", .i s.index.length),
   ("dimension", .i s.dimension)]

/-- File-system operations a persistence routine can perform: a direct
write at a path, a write to a temporary path, or an atomic rename. -/
inductive FsOp where
  | write (path : String)
  | writeTemp (path : String)
  | rename (src dst : String)
deriving DecidableEq, Repr

/-- Trace of `FastDocumentStore.save`: `faiss.write_index` writes the
index file at its final path, then `open(..., 'wb')` + `pickle.dump`
writes the docs/metadata blob at its final path.  No temporary file and
no rename appear anywhere in the source. -/
def FastStore.saveOps (storePath : String) : List FsOp :=
  [.write (storePath ++ "/faiss.index"),
   .write (storePath ++ "/docs.pkl")]

/-- On-disk snapshot as seen by `FastDocumentStore.load`: each artifact
is absent, readable with its content, or present but corrupt (in which
case `faiss.read_index` / `pickle.load` raises). -/
structure SnapshotFs where
  indexFile : Option (Except String (List (List Int)))
  docsFile : Option (Except String (List String × List Metadata))

/-- Translation of `FastDocumentStore.load`: each artifact is read when
present; a raised exception propagates to the caller because the source
has no exception handling. -/
def FastStore.load (fs : SnapshotFs) (s : FastStore) : Except String FastStore := do
  let s₁ ← match fs.indexFile with
    | none => pure s
    | some (.ok idx) => pure { s with index := idx }
    | some (.error e) => .error e
  match fs.docsFile with
    | none => pure s₁
    | some (.ok (docs, meta)) => pure { s₁ with documents := docs, metadata := meta }
    | some (.error e) => .error e

/-- Translation of `FastDocumentStore.__init__`: a fresh dimension-384
store on which `load()` is called, with any exception from `load`
propagating out of the constructor. -/
def FastStore.construct (fs : SnapshotFs) : Except String FastStore :=
  FastStore.load fs { dimension := 384, index := [], documents := [], metadata := [] }

/-- SQL `LIKE` pattern matching over character lists: `%` matches any
(possibly empty) run, `_` matches exactly one character, every other
pattern character matches itself. -/
def likeMatch : List Char → List Char → Bool
  | [], s => s.isEmpty
  | '%' :: p, s => s.tails.any (fun t => likeMatch p t)
  | '_' :: p, s =>
      match s with
      | [] => false
      | _ :: s' => likeMatch p s'
  | c :: p, s =>
      match s with
      | [] => false
      | c' :: s' => c == c' && likeMatch p s'

/-- Characters of a string, lower-cased (how `ILIKE` compares). -/
def lowerList (s : String) : List Char :=
  s.data.map Char.toLower

/-- Postgres `ILIKE`: case-insensitive `LIKE`. -/
def ilike (pat s : String) : Bool :=
  likeMatch (lowerList pat) (lowerList s)

/-- The four optional filter arguments of `PgVectorDocumentStore.search`. -/
structure Filters where
  date_year : Option Int
  date_year_range : Option (Int × Int)
  location : Option String
  source_file : Option String
deriving DecidableEq, Repr

/-- The empty filter set (every argument left at its `None` default). -/
def Filters.none : Filters := ⟨Option.none, Option.none, Option.none, Option.none⟩

/-- One row of the `documents` table (`id SERIAL` is the row's position
in the list; `created_at` plays no role in the modelled operations). -/
structure PgRow where
  content : String
  embedding : List Int
  source_file : Option String
  file_type : Option String
  file_path : Option String
  chunk_index : Option Int
  date_year : Option Int
  location : Option String
deriving DecidableEq, Repr

/-- The `documents` table, rows in insertion (`id`) order. -/
abbrev PgDb := List PgRow

/-- One result dict built by `PgVectorDocumentStore.search` (the nested
`metadata` dict is flattened into its six fields). -/
structure PgResult where
  text : String
  source_file : Option String
  file_type : Option String
  file_path : Option String
  chunk_index : Option Int
  date_year : Option Int
  location : Option String
  similarity : ℚ
deriving DecidableEq, Repr

/-- The SQL `WHERE` clause built by `PgVectorDocumentStore.search`: the
conjunction of the clauses of the filters that are present
(`date_year = v`, `date_year BETWEEN a AND b`, `location ILIKE '%v%'`,
`source_file = v`); a SQL comparison with a NULL column is not true. -/
def rowMatches (f : Filters) (r : PgRow) : Bool :=
  (match f.date_year with
   | Option.none => true
   | some y => match r.date_year with
     | some ry => ry == y
     | Option.none => false) &&
  (match f.date_year_range with
   | Option.none => true
   | some (a, b) => match r.date_year with
     | some ry => decide (a ≤ ry) && decide (ry ≤ b)
     | Option.none => false) &&
  (match f.location with
   | Option.none => true
   | some l => match r.location with
     | some rl => ilike ("%" ++ l ++ "%") rl
     | Option.none => false) &&
  (match f.source_file with
   | Option.none => true
   | some sf => match r.source_file with
     | some rs => rs == sf
     | Option.none => false)

/-- The same predicates read off a returned result's fields. -/
def resultMatches (f : Filters) (r : PgResult) : Bool :=
  (match f.date_year with
   | Option.none => true
   | some y => match r.date_year with
     | some ry => ry == y
     | Option.none => false) &&
  (match f.date_year_range with
   | Option.none => true
   | some (a, b) => match r.date_year with
     | some ry => decide (a ≤ ry) && decide (ry ≤ b)
     | Option.none => false) &&
  (match f.location with
   | Option.none => true
   | some l => match r.location with
     | some rl => ilike ("%" ++ l ++ "%") rl
     | Option.none => false) &&
  (match f.source_file with
   | Option.none => true
   | some sf => match r.source_file with
     | some rs => rs == sf
     | Option.none => false)

/-- The `ORDER BY embedding <=> query` ranking (the `<=>` cosine-distance
operator is the opaque parameter `d`); ties are resolved by `id`, i.e.
insertion order, to make the embedding deterministic. -/
def pgOrder (d : List Int → List Int → ℚ) (qv : List Int) (a b : Nat × PgRow) : Prop :=
  d a.2.embedding qv < d b.2.embedding qv ∨
    (d a.2.embedding qv = d b.2.embedding qv ∧ a.1 ≤ b.1)

instance (d : List Int → List Int → ℚ) (qv : List Int) : DecidableRel (pgOrder d qv) :=
  fun a b => by unfold pgOrder; exact inferInstanceAs (Decidable _)

/-- Translation of `PgVectorDocumentStore.search`: the rows satisfying
the ANDed filter clauses, ordered by `embedding <=> query_vector` with
`LIMIT k`, each mapped to a result dict with
`similarity = 1 - (embedding <=> query_vector)`. -/
def Pg.search (model : String → List Int) (d : List Int → List Int → ℚ) (db : PgDb)
    (query : String) (k : Nat) (f : Filters) : List PgResult :=
  let qv := model query
  let matching := (withIdx db).filter (fun p => rowMatches f p.2)
  ((matching.insertionSort (pgOrder d qv)).take k).map (fun p =>
    { text := p.2.content
      source_file := p.2.source_file
      file_type := p.2.file_type
      file_path := p.2.file_path
      chunk_index := p.2.chunk_index
      date_year := p.2.date_year
      location := p.2.location
      similarity := 1 - d p.2.embedding qv })

/-- String-valued read of a metadata key (the TEXT columns). -/
def mgetStr (m : Metadata) (k : String) : Option String :=
  match mget m k with
  | some (.s v) => some v
  | _ => Option.none

/-- Integer-valued read of a metadata key (the INTEGER columns). -/
def mgetInt (m : Metadata) (k : String) : Option Int :=
  match mget m k with
  | some (.i v) => some v
  | _ => Option.none

/-- Translation of `PgVectorDocumentStore.add_documents`: empty input is
a no-op; otherwise `metadatas` defaults to empty dicts when `None`, and
one row per `zip(texts, embeddings, metadatas)` entry is bulk-inserted,
reading the keys `source_file`, `file_type`, `file_path`, `chunk_index`,
`date_year`, `location` from each metadata dict. -/
def Pg.add_documents (model : String → List Int) (db : PgDb)
    (texts : List String) (metadatas : Option (List Metadata)) : PgDb :=
  if texts.isEmpty then db
  else
    let ms := match metadatas with
      | Option.none => List.replicate texts.length ([] : Metadata)
      | some l => l
    db ++ (texts.zip ms).map (fun tm =>
      { content := tm.1
        embedding := model tm.1
        source_file := mgetStr tm.2 "source_file"
        file_type := mgetStr tm.2 "file_type"
        file_path := mgetStr tm.2 "file_path"
        chunk_index := mgetInt tm.2 "chunk_index"
        date_year := mgetInt tm.2 "date_year"
        location := mgetStr tm.2 "location" })

/-- Translation of `PgVectorDocumentStore.clear` (`TRUNCATE TABLE`). -/
def Pg.clear (_ : PgDb) : PgDb := []

/-- Translation of `PgVectorDocumentStore.get_stats`: `COUNT(*)`,
`COUNT(DISTINCT source_file)` over non-NULL values, the model dimension,
and `"min-max"` over the non-NULL `date_year` values — or SQL NULL when
the minimum is Python-falsy (`None`, or the quirky year `0`). -/
def Pg.get_stats (db : PgDb) : Metadata :=
  let ys := db.filterMap (fun r => r.date_year)
  [("total_chunks", .i db.length),
   ("unique_files", .i (db.filterMap (fun r => r.source_file)).dedup.length),
   ("dimension", .i 384),
   ("year_range",
    match ys.min?, ys.max? with
    | some a, some b => if a ≠ 0 then .s (toString a ++ "-" ++ toString b) else .null
    | _, _ => .null)]

/-- Whether a file-system operation is a direct write at a final path. -/
def FsOp.isDirectWrite : FsOp → Bool
  | .write _ => true
  | _ => false

/-- Whether a file-system operation is an atomic rename/replace. -/
def FsOp.isAtomicRename : FsOp → Bool
  | .rename _ _ => true
  | _ => false

/-- The parallel-lists consistency invariant of `FastDocumentStore`: the
documents list, the metadata list and the FAISS index hold the same
number of entries. -/
def FastStore.inv (s : FastStore) : Prop :=
  s.documents.length = s.metadata.length ∧ s.documents.length = s.index.length

instance (s : FastStore) : Decidable s.inv := by
  unfold FastStore.inv; exact inferInstanceAs (Decidable _)

/-- The location filter of the VectorIndex contract, read off a stored
metadata dict with the backend's own `ILIKE '%...%'` semantics. -/
def metaLocationMatches (needle : String) (m : Metadata) : Bool :=
  match mgetStr m "location" with
  | some l => ilike ("%" ++ needle ++ "%") l
  | Option.none => false

/-- A character list free of the two `LIKE` wildcard characters. -/
def noWildcards (l : List Char) : Prop :=
  ∀ c ∈ l, c ≠ '%' ∧ c ≠ '_'

instance (l : List Char) : Decidable (noWildcards l) := by
  unfold noWildcards; exact inferInstanceAs (Decidable _)

example : ilike "%bend%" "Greater BENDIGO region" = true := by decide

example : ilike "%bend%" "Melbourne" = false := by decide

example :
    (Pg.search (fun _ => [1]) (fun _ _ => 0)
      [{ content := "a", embedding := [1], source_file := some "a.pdf",
         file_type := Option.none, file_path := Option.none, chunk_index := Option.none,
         date_year := some 1850, location := some "Bendigo" },
       { content := "b", embedding := [1], source_file := some "b.pdf",
         file_type := Option.none, file_path := Option.none, chunk_index := Option.none,
         date_year := some 1900, location := some "Ballarat" }]
      "q" 5 { Filters.none with date_year_range := some (1860, 1950) }).map
      (fun r => r.text) = ["b"] := by
  decide

example :
    (FastStore.search (fun _ => [0])
      { dimension := 384, index := [[0], [3]],
        documents := ["gold in Melbourne", "quartz reef"],
        metadata := [[("location", .s "Melbourne")], []] } "gold" 5).map
      (fun rs => rs.map (fun r => (r.text, r.metadata, r.distance))) =
    .ok [("gold in Melbourne", [("location", .s "Melbourne")], 0),
         ("quartz reef", [], 9)] := by
  decide

/-- C2: the claim requires every persistence write of the file-backed
backend to go to a temporary location followed by an atomic
rename/replace.  The trace of `FastDocumentStore.save` (run on every
successful insert and clear) contains no rename at all and writes both
artifacts directly at their final paths, so a crash mid-write leaves a
truncated/half-written `docs.pkl` or `faiss.index` visible and destroys
the previous snapshot. -/
theorem c2_save_in_place :
    (FastStore.saveOps "/app/data/vector_store").filter FsOp.isAtomicRename = [] ∧
    FsOp.write "/app/data/vector_store/faiss.index" ∈
      FastStore.saveOps "/app/data/vector_store" ∧
    FsOp.write "/app/data/vector_store/docs.pkl" ∈
      FastStore.saveOps "/app/data/vector_store" ∧
    (FastStore.saveOps "/app/data/vector_store").all FsOp.isDirectWrite = true := by
  exact ⟨by decide, by decide, by decide, by decide⟩

/-- C3: the claim requires a configuration with `chunkOverlap >= chunkSize`
to fail fast.  The constructor stores any sizes unchecked; with
`chunk_size = 2, chunk_overlap = 3` chunking a nonempty text silently
returns zero chunks, and with `chunk_size = 2, chunk_overlap = 2` the
failure happens only inside `chunk_text` (Python's `range` raising
`ValueError`), not at configuration time. -/
theorem c3_invalid_chunk_config_accepted :
    chunk_text ⟨2, 3⟩ "a b c" Option.none = .ok ([], []) ∧
    chunk_text ⟨2, 2⟩ "a b c" Option.none = .error "range() arg 3 must not be zero" ∧
    chunk_text ⟨2, 1⟩ "a b c" Option.none =
      .ok (["a b", "b c", "c"],
           [[("chunk_index", .i 0)], [("chunk_index", .i 1)], [("chunk_index", .i 2)]]) := by
  exact ⟨by decide, by decide, by decide⟩

/-- C5 counterexample: the stats dict of the file-backed backend holds
only `total_chunks`, `index_size` and `dimension`; on a store with one
chunk the claimed `uniqueFiles` and `yearRange` fields are absent. -/
theorem c5_fast_stats_missing :
    mget (FastStore.get_stats
      ⟨384, [[0]], ["a"], [[("source", .s "a.pdf"), ("date_year", .i 1850)]]⟩)
      "unique_files" = Option.none ∧
    mget (FastStore.get_stats
      ⟨384, [[0]], ["a"], [[("source", .s "a.pdf"), ("date_year", .i 1850)]]⟩)
      "year_range" = Option.none ∧
    mget (FastStore.get_stats
      ⟨384, [[0]], ["a"], [[("source", .s "a.pdf"), ("date_year", .i 1850)]]⟩)
      "total_chunks" = some (.i 1) := by
  exact ⟨by decide, by decide, by decide⟩

/-- C6: the claim requires a corrupt snapshot to leave startup alive with
an empty store and a reported typed failure.  `FastDocumentStore.load`
has no exception handling, so the `pickle.load` failure on a corrupt
`docs.pkl` propagates out of `__init__` and startup crashes. -/
theorem c6_corrupt_snapshot_crashes :
    FastStore.construct ⟨Option.none, some (.error "unpickling stack underflow")⟩ =
      .error "unpickling stack underflow" ∧
    FastStore.construct ⟨some (.error "could not read index"), Option.none⟩ =
      .error "could not read index" ∧
    FastStore.construct ⟨Option.none, Option.none⟩ =
      .ok ⟨384, [], [], []⟩ := by
  exact ⟨by decide, by decide, by decide⟩

/-- C7: the claim says chunks carry `source_file`/`file_type`/`file_path`
and that the relational backend reads exactly those keys.  The processor
in fact attaches `source`/`type`/`path`, so the rows inserted from its
metadata get NULL in all three columns: the writer and the reader of the
pipeline disagree on the key names. -/
theorem c7_metadata_key_mismatch :
    process_and_chunk DocumentProcessor.default "report.pdf" ".pdf" "/docs/report.pdf"
        "gold rush Bendigo 1852" =
      .ok (["gold rush Bendigo 1852"],
           [[("source", .s "report.pdf"), ("type", .s ".pdf"),
             ("path", .s "/docs/report.pdf"), ("chunk_index", .i 0)]]) ∧
    (Pg.add_documents (fun _ => [0]) [] ["gold rush Bendigo 1852"]
        (some [[("source", .s "report.pdf"), ("type", .s ".pdf"),
                ("path", .s "/docs/report.pdf"), ("chunk_index", .i 0)]])).map
      (fun r => (r.source_file, r.file_type, r.file_path, r.chunk_index)) =
      [(Option.none, Option.none, Option.none, some 0)] := by
  exact ⟨by decide, by decide⟩

/-- C9: the parallel-lists invariant of `FastDocumentStore` is preserved
by `add_documents` whenever the caller passes `metadatas` that is
`None`, empty, or of the same length as `texts`, and by `clear`;
`add_documents` itself validates nothing, so a single call with a
nonempty `metadatas` of the wrong length (here one dict for two texts)
breaks the invariant. -/
theorem c9_parallel_lists (model : String → List Int) (s : FastStore)
    (texts : List String) (metadatas : Option (List Metadata))
    (h : s.inv)
    (hpre : metadatas = Option.none ∨ metadatas = some [] ∨
      ∃ ms, metadatas = some ms ∧ ms.length = texts.length) :
    (FastStore.add_documents model s texts metadatas).inv ∧
    (FastStore.clear s).inv ∧
    ¬ (FastStore.add_documents (fun _ => [0]) ⟨384, [], [], []⟩ ["a", "b"] (some [[]])).inv := by
  obtain ⟨h1, h2⟩ := h
  refine ⟨?_, by simp [FastStore.clear, FastStore.inv], by decide⟩
  by_cases ht : texts.isEmpty
  · simpa [FastStore.add_documents, ht] using ⟨h1, h2⟩
  · rcases hpre with rfl | rfl | ⟨ms, rfl, hlen⟩
    · simp [FastStore.add_documents, ht, FastStore.inv]
      omega
    · simp [FastStore.add_documents, ht, FastStore.inv]
      omega
    · cases ms with
      | nil =>
          simp only [List.length_nil] at hlen
          rw [List.isEmpty_iff_length_eq_zero] at ht
          omega
      | cons m ms =>
          simp only [List.length_cons] at hlen
          simp [FastStore.add_documents, ht, FastStore.inv]
          omega

/-- Witness for C9 at a concrete input: adding one text with default
metadata to a consistent empty store keeps the invariant. -/
theorem c9_witness :
    (FastStore.add_documents (fun _ => [0]) ⟨384, [], [], []⟩ ["a"] Option.none).inv :=
  (c9_parallel_lists (fun _ => [0]) ⟨384, [], [], []⟩ ["a"] Option.none
    (by exact ⟨rfl, rfl⟩) (Or.inl rfl)).1

/-- Accumulator invariant of the `chunk_text` loop: if the metadata
accumulator pairs one dict per chunk, each equal to the base metadata
with `chunk_index` set to its position, the loop preserves this. -/
theorem chunkLoop_spec (words : List String) (size : Nat) (base : Metadata)
    (idxs : List Nat) :
    ∀ (cs : List String) (ms : List Metadata),
      cs.length = ms.length →
      (∀ i (hi : i < ms.length), ms[i] = mset base "chunk_index" (.i i)) →
      (chunkLoop words size base idxs cs ms).1.length =
          (chunkLoop words size base idxs cs ms).2.length ∧
        ∀ i (hi : i < (chunkLoop words size base idxs cs ms).2.length),
          (chunkLoop words size base idxs cs ms).2[i] = mset base "chunk_index" (.i i) := by
  induction idxs with
  | nil =>
      intro cs ms hlen hms
      exact ⟨hlen, hms⟩
  | cons i rest ih =>
      intro cs ms hlen hms
      simp only [chunkLoop]
      split
      · exact ih cs ms hlen hms
      · apply ih
        · simp [hlen]
        · intro j hj
          simp only [List.length_append, List.length_cons, List.length_nil] at hj
          rcases Nat.lt_succ_iff_lt_or_eq.mp hj with hj' | hj'
          · rw [List.getElem_append_left hj']
            exact hms j hj'
          · subst hj'
            simp only [hlen]
            simp

/-- Unfolding lemma for `chunk_text` with its let-bindings reduced. -/
theorem chunk_text_eq (p : DocumentProcessor) (text : String) (meta : Option Metadata) :
    chunk_text p text meta =
      if (splitWords text).isEmpty then .ok ([], [])
      else
        match pyRangeIdx (splitWords text).length
            ((p.chunk_size : Int) - (p.chunk_overlap : Int)) with
        | .error e => .error e
        | .ok idxs =>
            .ok (chunkLoop (splitWords text) p.chunk_size (meta.getD []) idxs [] []) := by
  cases meta <;> rfl

/-- C8: every chunk produced by one `chunk_text` call carries a copy of
the base metadata extended with `chunk_index` equal to its 0-based
position in the output, so the indices are contiguous from 0 in chunk
order; this holds for every configuration, text and base metadata
whenever the call returns at all. -/
theorem c8_chunk_index (p : DocumentProcessor) (text : String) (meta : Option Metadata)
    (cs : List String) (ms : List Metadata)
    (h : chunk_text p text meta = .ok (cs, ms)) :
    cs.length = ms.length ∧
    ∀ i (hi : i < ms.length), ms[i] = mset (meta.getD []) "chunk_index" (.i i) := by
  rw [chunk_text_eq] at h
  split at h
  · simp only [Except.ok.injEq, Prod.mk.injEq] at h
    obtain ⟨rfl, rfl⟩ := h
    exact ⟨rfl, by intro i hi; cases hi⟩
  · split at h
    · cases h
    · rename_i idxs heq
      simp only [Except.ok.injEq] at h
      have := chunkLoop_spec (splitWords text) p.chunk_size (meta.getD []) idxs [] []
        rfl (by intro i hi; cases hi)
      rw [h] at this
      exact this

/-- Witness for C8 at a concrete input: chunking "a b c" with window 2
and overlap 1 over a base dict yields three chunks whose metadata list
has matching length. -/
theorem c8_witness :
    (["a b", "b c", "c"] : List String).length =
      ([[("source", MValue.s "x"), ("chunk_index", MValue.i 0)],
        [("source", MValue.s "x"), ("chunk_index", MValue.i 1)],
        [("source", MValue.s "x"), ("chunk_index", MValue.i 2)]] : List Metadata).length :=
  (c8_chunk_index ⟨2, 1⟩ "a b c" (some [("source", .s "x")]) _ _ (by decide)).1

/-- C10 counterexample: the guard of `search` checks only
`idx < len(self.documents)`, not the metadata list.  A store reached by
the public API (`add_documents` with two texts but one metadata dict)
has two documents and one metadata entry, and `search` then raises
`IndexError` on `self.metadata[1]` instead of returning a shorter result
list. -/
theorem c10_guard_misses_metadata :
    FastStore.add_documents (fun _ => [0]) ⟨384, [], [], []⟩ ["a", "b"] (some [[]]) =
      ⟨384, [[0], [0]], ["a", "b"], [[]]⟩ ∧
    FastStore.search (fun _ => [0]) ⟨384, [[0], [0]], ["a", "b"], [[]]⟩ "q" 2 =
      .error "list index out of range" := by
  exact ⟨by decide, by decide⟩

/-- Every indexed pair produced by `withIdx` has its index below the
list's length. -/
theorem withIdx_fst_lt {α : Type} {l : List α} {p : Nat × α} (hp : p ∈ withIdx l) :
    p.1 < l.length := by
  unfold withIdx at hp
  obtain ⟨i, a⟩ := p
  exact List.mem_range.mp (List.of_mem_zip hp).1

/-- The FAISS top-k candidate list has exactly `min n ntotal` entries. -/
theorem faissTopK_length (index : List (List Int)) (qv : List Int) (n : Nat) :
    (faissTopK index qv n).length = min n index.length := by
  simp [faissTopK, List.length_insertionSort, withIdx]

/-- Every FAISS candidate's index is a valid position of the index. -/
theorem faissTopK_idx_lt (index : List (List Int)) (qv : List Int) (n : Nat) :
    ∀ p ∈ faissTopK index qv n, p.1 < index.length := by
  intro p hp
  have h1 := List.mem_of_mem_take hp
  have h2 := (List.mem_insertionSort candOrder).mp h1
  obtain ⟨q, hq, rfl⟩ := List.mem_map.mp h2
  exact withIdx_fst_lt hq

/-- When the metadata list covers the documents list, the result-building
loop of `search` succeeds, returns at most one result per candidate, and
every result is read from a guarded position `i < len(documents)`. -/
theorem buildResults_ok (docs : List String) (meta : List Metadata)
    (h : docs.length ≤ meta.length) (cands : List (Nat × Int)) :
    ∃ res, buildResults docs meta cands = .ok res ∧
      res.length ≤ cands.length ∧
      ∀ r ∈ res, ∃ i, i < docs.length ∧
        docs[i]? = some r.text ∧ meta[i]? = some r.metadata := by
  induction cands with
  | nil => exact ⟨[], rfl, Nat.le_refl 0, by intro r hr; cases hr⟩
  | cons c rest ih =>
      obtain ⟨res, hres, hlen, hmem⟩ := ih
      obtain ⟨i, d⟩ := c
      by_cases hi : i < docs.length
      · have him : i < meta.length := Nat.lt_of_lt_of_le hi h
        refine ⟨⟨docs.get ⟨i, hi⟩, meta.get ⟨i, him⟩, d, 1 / (1 + (d : ℚ))⟩ :: res, ?_, ?_, ?_⟩
        · simp only [buildResults, if_pos hi, pyGet, dif_pos hi, dif_pos him, hres]
        · simpa using Nat.succ_le_succ hlen
        · intro r hr
          rcases List.mem_cons.mp hr with rfl | hr'
          · refine ⟨i, hi, ?_, ?_⟩ <;> simp
          · exact hmem r hr'
      · refine ⟨res, ?_, Nat.le_succ_of_le hlen, hmem⟩
        simp only [buildResults, if_neg hi, hres]

/-- C10, amended: provided the metadata list is at least as long as the
documents list (the state every preconditioned use of `add_documents`
maintains), `search` indeed never indexes out of bounds: it returns a
(possibly shorter) result list in which every entry was read from a
guarded position `0 <= idx < len(documents)`, even if the FAISS index
holds more vectors than the documents list.  Without that proviso the
guard does not protect the `self.metadata[idx]` access (see the
counterexample). -/
theorem c10_bounds_amended (model : String → List Int) (s : FastStore) (q : String) (k : Nat)
    (h : s.documents.length ≤ s.metadata.length) :
    ∃ res, FastStore.search model s q k = .ok res ∧
      res.length ≤ min k s.index.length ∧
      ∀ r ∈ res, ∃ i, i < s.documents.length ∧
        s.documents[i]? = some r.text ∧ s.metadata[i]? = some r.metadata := by
  unfold FastStore.search
  by_cases h0 : s.index.length = 0
  · exact ⟨[], by simp [h0], by simp, by intro r hr; cases hr⟩
  · obtain ⟨res, hres, hlen, hmem⟩ :=
      buildResults_ok s.documents s.metadata h
        (faissTopK s.index (model q) (min k s.index.length))
    refine ⟨res, by simp [h0, hres], ?_, hmem⟩
    calc res.length ≤ (faissTopK s.index (model q) (min k s.index.length)).length := hlen
      _ = min (min k s.index.length) s.index.length := faissTopK_length _ _ _
      _ = min k s.index.length := by rw [Nat.min_assoc, Nat.min_self]

/-- Witness for C10 at a concrete input: a consistent one-document store
searched with `k = 5` returns a result list of at most one entry. -/
theorem c10_witness :
    ∃ res, FastStore.search (fun _ => [0]) ⟨384, [[0]], ["a"], [[]]⟩ "q" 5 = .ok res ∧
      res.length ≤ min 5 ([[0]] : List (List Int)).length ∧
      ∀ r ∈ res, ∃ i, i < (["a"] : List String).length ∧
        (["a"] : List String)[i]? = some r.text ∧
        ([[]] : List Metadata)[i]? = some r.metadata :=
  c10_bounds_amended (fun _ => [0]) ⟨384, [[0]], ["a"], [[]]⟩ "q" 5 (by decide)

/-- C4: search on both backends returns at most `min(k, totalMatching)`
results and yields an empty list (not an error) on an empty or fully
filtered-out index.  For the relational backend the result length is
exactly `min k` of the number of rows matching the filters, hence empty
on an empty table or when nothing matches; for the file-backed backend
an empty index short-circuits to `ok []` and otherwise (on a store whose
metadata list covers its documents) at most `min(k, ntotal)` results
come back. -/
theorem c4_search_bounded :
    (∀ (model : String → List Int) (d : List Int → List Int → ℚ) (db : PgDb)
       (q : String) (k : Nat) (f : Filters),
       (Pg.search model d db q k f).length =
         min k ((withIdx db).filter (fun p => rowMatches f p.2)).length) ∧
    (∀ (model : String → List Int) (d : List Int → List Int → ℚ) (q : String) (k : Nat)
       (f : Filters), Pg.search model d [] q k f = []) ∧
    (∀ (model : String → List Int) (d : List Int → List Int → ℚ) (db : PgDb)
       (q : String) (k : Nat) (f : Filters),
       (withIdx db).filter (fun p => rowMatches f p.2) = [] →
       Pg.search model d db q k f = []) ∧
    (∀ (model : String → List Int) (s : FastStore) (q : String) (k : Nat),
       s.index.length = 0 → FastStore.search model s q k = .ok []) ∧
    (∀ (model : String → List Int) (s : FastStore) (q : String) (k : Nat),
       s.documents.length ≤ s.metadata.length →
       ∃ res, FastStore.search model s q k = .ok res ∧
         res.length ≤ min k s.index.length) := by
  refine ⟨?_, ?_, ?_, ?_, ?_⟩
  · intro model d db q k f
    simp [Pg.search, List.length_insertionSort, Nat.min_comm]
  · intro model d q k f
    simp [Pg.search, withIdx]
  · intro model d db q k f hf
    simp only [Pg.search, hf]
    simp
  · intro model s q k h0
    simp [FastStore.search, h0]
  · intro model s q k h
    by_cases h0 : s.index.length = 0
    · exact ⟨[], by simp [FastStore.search, h0], by simp⟩
    · obtain ⟨res, hres, hlen, _⟩ :=
        buildResults_ok s.documents s.metadata h
          (faissTopK s.index (model q) (min k s.index.length))
      refine ⟨res, by simp [FastStore.search, h0, hres], ?_⟩
      calc res.length ≤ (faissTopK s.index (model q) (min k s.index.length)).length := hlen
        _ = min (min k s.index.length) s.index.length := faissTopK_length _ _ _
        _ = min k s.index.length := by rw [Nat.min_assoc, Nat.min_self]

/-- Witness for C4 at a concrete input: an empty file-backed store
returns the empty result list for any query. -/
theorem c4_witness :
    FastStore.search (fun _ => [0]) ⟨384, [], [], []⟩ "anything" 5 = .ok [] :=
  c4_search_bounded.2.2.2.1 (fun _ => [0]) ⟨384, [], [], []⟩ "anything" 5 (by decide)

/-- Unfolding of `likeMatch` for the branch on `%`. -/
theorem likeMatch_percent (p s : List Char) :
    likeMatch ('%' :: p) s = s.tails.any (fun t => likeMatch p t) := rfl

/-- Unfolding of `likeMatch` for a literal (non-wildcard) head. -/
theorem likeMatch_lit (c : Char) (hc1 : c ≠ '%') (hc2 : c ≠ '_') (p : List Char) :
    ∀ s, likeMatch (c :: p) s =
      (match s with
       | [] => false
       | c' :: s' => c == c' && likeMatch p s') := by
  intro s
  cases s <;> simp [likeMatch, hc1, hc2]

/-- A wildcard-free pattern followed by `%` matches exactly the strings
it prefixes. -/
theorem likeMatch_append_percent (p : List Char) (hp : noWildcards p) :
    ∀ s, likeMatch (p ++ ['%']) s = true ↔ p <+: s := by
  induction p with
  | nil =>
      intro s
      constructor
      · intro _
        exact List.nil_prefix
      · intro _
        rw [List.nil_append, likeMatch_percent, List.any_eq_true]
        exact ⟨[], (List.mem_tails _ _).mpr (List.nil_suffix), rfl⟩
  | cons c p ih =>
      intro s
      have hc := hp c (List.mem_cons_self c p)
      have hp' : noWildcards p := fun x hx => hp x (List.mem_cons_of_mem c hx)
      cases s with
      | nil =>
          rw [List.cons_append]
          simp [likeMatch, hc.1, hc.2]
      | cons c' s' =>
          rw [List.cons_append, likeMatch_lit c hc.1 hc.2]
          simp only [Bool.and_eq_true, beq_iff_eq, List.cons_prefix_cons, ih hp' s']

/-- For a filter value without `LIKE` wildcards, the backend's
`location ILIKE '%value%'` clause is exactly case-insensitive substring
containment. -/
theorem ilike_substring (needle s : String) (h : noWildcards (lowerList needle)) :
    ilike ("%" ++ needle ++ "%") s = true ↔ lowerList needle <:+: lowerList s := by
  have hdata : lowerList ("%" ++ needle ++ "%") = '%' :: (lowerList needle ++ ['%']) := by
    simp [lowerList, String.data_append]
  rw [show ilike ("%" ++ needle ++ "%") s =
        likeMatch (lowerList ("%" ++ needle ++ "%")) (lowerList s) from rfl,
      hdata, likeMatch_percent, List.any_eq_true]
  constructor
  · intro ⟨t, ht, hm⟩
    exact List.infix_iff_prefix_suffix.mpr
      ⟨t, (likeMatch_append_percent _ h t).mp hm, (List.mem_tails _ _).mp ht⟩
  · intro hinf
    obtain ⟨t, hpre, hsuf⟩ := List.infix_iff_prefix_suffix.mp hinf
    exact ⟨t, (List.mem_tails _ _).mpr hsuf, (likeMatch_append_percent _ h t).mpr hpre⟩

/-- C1 counterexample: the file-backed backend's `search` takes no
filter arguments at all, so no search on it can apply a metadata
predicate: on a store whose only record has location "Melbourne", the
one available search returns that record even though it fails the
location filter "Bendigo" that the claim says the backend supports. -/
theorem c1_fast_no_filters :
    (FastStore.search (fun _ => [0])
      ⟨384, [[0]], ["gold in Melbourne"], [[("location", .s "Melbourne")]]⟩ "gold" 5).map
      (fun rs => rs.map (fun r => (r.text, metaLocationMatches "Bendigo" r.metadata,
        metaLocationMatches "melb" r.metadata))) =
    .ok [("gold in Melbourne", false, true)] := by
  decide

/-- C1, amended: the relational backend supports the four optional
filter predicates combined with logical AND — every returned result
satisfies every requested predicate, an absent filter set constrains
nothing, and for wildcard-free values the location clause is exactly
case-insensitive substring match; the file-backed backend's search
accepts no filters (see the counterexample). -/
theorem c1_pg_filters_amended :
    (∀ (model : String → List Int) (d : List Int → List Int → ℚ) (db : PgDb)
       (q : String) (k : Nat) (f : Filters),
       (Pg.search model d db q k f).all (fun r => resultMatches f r) = true) ∧
    (∀ r : PgRow, rowMatches Filters.none r = true) ∧
    (∀ needle s : String, noWildcards (lowerList needle) →
       (ilike ("%" ++ needle ++ "%") s = true ↔ lowerList needle <:+: lowerList s)) := by
  refine ⟨?_, ?_, fun needle s h => ilike_substring needle s h⟩
  · intro model d db q k f
    rw [List.all_eq_true]
    intro r hr
    simp only [Pg.search] at hr
    obtain ⟨p, hp, rfl⟩ := List.mem_map.mp hr
    have hp1 := List.mem_of_mem_take hp
    have hp2 := (List.mem_insertionSort _).mp hp1
    exact (List.mem_filter.mp hp2).2
  · intro r
    rfl

/-- Witness for C1 at a concrete input: the wildcard-free location value
"bend" makes the backend's `ILIKE '%bend%'` clause coincide with
case-insensitive substring containment. -/
theorem c1_witness :
    ilike ("%" ++ "bend" ++ "%") "Greater BENDIGO region" = true ↔
      lowerList "bend" <:+: lowerList "Greater BENDIGO region" :=
  c1_pg_filters_amended.2.2 "bend" "Greater BENDIGO region" (by decide)

/-- C5, amended: the relational backend's stats response carries all
four fields, recomputed from the table on demand — `total_chunks` is the
row count, `unique_files` the number of distinct non-NULL source files,
`dimension` the model dimension, and `year_range` the string "min-max"
over the `date_year` values present (SQL NULL when none are, or when the
minimum is the Python-falsy year 0); the file-backed backend's stats
dict instead carries only `total_chunks`, `index_size` and `dimension`
(see the counterexample). -/
theorem c5_stats_amended :
    (∀ db : PgDb,
       mget (Pg.get_stats db) "total_chunks" = some (.i db.length) ∧
       mget (Pg.get_stats db) "unique_files" =
         some (.i (db.filterMap (fun r => r.source_file)).dedup.length) ∧
       mget (Pg.get_stats db) "dimension" = some (.i 384)) ∧
    (∀ db : PgDb, db.filterMap (fun r => r.date_year) = [] →
       mget (Pg.get_stats db) "year_range" = some .null) ∧
    (∀ (db : PgDb) (a b : Int),
       (db.filterMap (fun r => r.date_year)).min? = some a →
       (db.filterMap (fun r => r.date_year)).max? = some b →
       a ≠ 0 →
       mget (Pg.get_stats db) "year_range" =
         some (.s (toString a ++ "-" ++ toString b)) ∧
       ∀ y ∈ db.filterMap (fun r => r.date_year), a ≤ y ∧ y ≤ b) ∧
    (∀ s : FastStore, (FastStore.get_stats s).map Prod.fst =
       ["total_chunks", "index_size", "dimension"]) := by
  refine ⟨?_, ?_, ?_, ?_⟩
  · intro db
    exact ⟨rfl, rfl, rfl⟩
  · intro db h
    simp [Pg.get_stats, mget, h]
  · intro db a b hmin hmax ha
    constructor
    · simp [Pg.get_stats, mget, hmin, hmax, ha]
    · intro y hy
      exact ⟨(List.le_min?_iff (fun _ _ _ => le_min_iff) hmin).mp (le_refl a) y hy,
             (List.max?_le_iff (fun _ _ _ => max_le_iff) hmax).mp (le_refl b) y hy⟩
  · intro s
    rfl

/-- Witness for C5 at a concrete input: a two-row table with years 1850
and 1950 reports the year range "1850-1950", which bounds every stored
year. -/
theorem c5_witness :
    mget (Pg.get_stats
      [{ content := "a", embedding := [0], source_file := some "a.pdf",
         file_type := Option.none, file_path := Option.none, chunk_index := Option.none,
         date_year := some 1850, location := Option.none },
       { content := "b", embedding := [0], source_file := some "b.pdf",
         file_type := Option.none, file_path := Option.none, chunk_index := Option.none,
         date_year := some 1950, location := Option.none }]) "year_range" =
      some (.s (toString (1850 : Int) ++ "-" ++ toString (1950 : Int))) ∧
    ∀ y ∈ ([{ content := "a", embedding := [0], source_file := some "a.pdf",
              file_type := Option.none, file_path := Option.none, chunk_index := Option.none,
              date_year := some 1850, location := Option.none },
            { content := "b", embedding := [0], source_file := some "b.pdf",
              file_type := Option.none, file_path := Option.none, chunk_index := Option.none,
              date_year := some 1950, location := Option.none }] : PgDb).filterMap
        (fun r => r.date_year), (1850 : Int) ≤ y ∧ y ≤ 1950 :=
  c5_stats_amended.2.2.1 _ 1850 1950 (by decide) (by decide) (by decide)
